import Mathlib

/-!
Shallow embedding of the cubeviz plugin code:
  * `src/cubeviz/tools/spectral_operations.py`
    (`SpectralOperationHandler`, `SimpleProgressTracker`, `OperationThread`)
  * `src/cubeviz/controls/units.py` (`UnitController`)

Python numbers are modelled as `ℚ` (every operation performed — setting a
value, incrementing by one, appending to a list — is exact, so no
floating-point rounding is lost by this choice).  Python `None` is modelled
with `Option`; a raised Python exception is modelled with `Except` or an
explicit `raised` field.  Lists of glue component ids are modelled by their
string representations (`str(x)` in the code).
-/

namespace Cubeviz

/-! ### Python helpers -/

/-- Python truthiness-based defaulting `value or default` for an optional
numeric `value`: `None` and `0` are falsy, any other number is truthy. -/
def pyOr (value : Option ℚ) (default : ℚ) : ℚ :=
  match value with
  | none => default
  | some v => if v = 0 then default else v

/-- Predicate `listIsPre needle hay` is true when `needle` is a prefix of `hay`
(character lists). -/
def listIsPre : List Char → List Char → Bool
  | [], _ => true
  | _ :: _, [] => false
  | a :: as, b :: bs => decide (a = b) && listIsPre as bs

/-- Predicate `listIsSub needle hay` is true when `needle` occurs contiguously inside
`hay` (character lists). -/
def listIsSub : List Char → List Char → Bool
  | needle, [] => listIsPre needle []
  | needle, c :: rest => listIsPre needle (c :: rest) || listIsSub needle rest

/-- Python substring containment `needle in hay` on strings. -/
def py_in_str (needle hay : String) : Bool :=
  listIsSub needle.toList hay.toList

/-- Python `list.index(x)`: index of the first occurrence of `x`, raising
`ValueError` when `x` is absent. -/
def py_list_index (xs : List String) (x : String) : Except String ℕ :=
  match xs with
  | [] => Except.error "ValueError: not in list"
  | y :: ys =>
    if y = x then Except.ok 0
    else Except.map (· + 1) (py_list_index ys x)

/-- Python `xs[i]` on a list, raising `IndexError` when out of range. -/
def pyIndex (xs : List String) (i : ℕ) : Except String String :=
  match xs.get? i with
  | some v => Except.ok v
  | none => Except.error "IndexError: list index out of range"

/-! ### `SimpleProgressTracker` (spectral_operations.py, lines 146-179) -/

/-- State of `SimpleProgressTracker`: `_current_value`, `_total_value` and
`_abort_flag` as set up in `__init__`. -/
structure SimpleProgressTracker where
  current_value : ℚ
  total_value : ℚ
  abort_flag : Bool
deriving DecidableEq, Repr

/-- Constructor `SimpleProgressTracker.__init__(total_value)`:
`_current_value = 0.0`, `_abort_flag = False`. -/
def tracker_mk (total_value : ℚ) : SimpleProgressTracker :=
  { current_value := 0, total_value := total_value, abort_flag := false }

/-- Result of one `SimpleProgressTracker.__call__`: the updated object state
together with the exception raised, if any (the state update happens before
the abort check, so it survives the raise). -/
structure CallResult where
  tracker : SimpleProgressTracker
  raised : Option String
deriving DecidableEq, Repr

/-- Method `SimpleProgressTracker.__call__(value=None)`:
`self._current_value = value or self._current_value + 1`, then
`raise Exception("Process aborted.")` when `self._abort_flag` is set. -/
def trackerCall (t : SimpleProgressTracker) (value : Option ℚ) : CallResult :=
  let t1 : SimpleProgressTracker :=
    { t with current_value := pyOr value (t.current_value + 1) }
  { tracker := t1
    raised := if t1.abort_flag then some "Process aborted." else none }

/-- Property `SimpleProgressTracker.percent_value`. -/
def percent_value (t : SimpleProgressTracker) : ℚ :=
  t.current_value / t.total_value

/-- Method `SimpleProgressTracker.abort()`: sets the abort flag. -/
def tracker_abort (t : SimpleProgressTracker) : SimpleProgressTracker :=
  { t with abort_flag := true }

/-! ### `OperationThread.run` (spectral_operations.py, lines 204-227)

`run` builds a fresh tracker with `total = shape[1] * shape[2]` and hands
`progress_wrapper` to `SpectralCube.apply_function` as its per-spatial-element
`update_function`; the wrapper calls the tracker (which raises once the abort
flag is set) and then emits a `status` signal.  When `apply_function` returns
normally, `run` emits exactly one `finished` signal.  An exception from the
tracker propagates out of `apply_function` and out of `run`, so nothing after
it executes.  `OperationThread.abort` sets the tracker's abort flag from the
foreground thread; we model its arrival with `abortReq : ℕ → Bool`, where
`abortReq i = true` means the request has arrived by the time of the `i`-th
progress callback (the flag, once set, persists in the tracker state). -/

/-- Signals emitted by `OperationThread` during `run`. -/
inductive RunEvent where
  | status (value : ℚ)
  | finished
deriving DecidableEq, Repr

/-- The loop of progress callbacks made by `apply_function` during
`OperationThread.run`: `n` spatial elements remain, the next callback has
index `i`, and `t` is the shared tracker.  Each step first applies any
pending `OperationThread.abort` request, then runs `progress_wrapper`
(tracker call, then `status` emit); a raise unwinds the whole run at once.
After the last element, `finished` is emitted. -/
def runFrom (abortReq : ℕ → Bool) :
    (n : ℕ) → (i : ℕ) → SimpleProgressTracker → List RunEvent
  | 0, _, _ => [RunEvent.finished]
  | n + 1, i, t =>
    let t1 := if abortReq i then tracker_abort t else t
    let r := trackerCall t1 none
    match r.raised with
    | some _ => []
    | none => RunEvent.status (percent_value r.tracker) ::
        runFrom abortReq n (i + 1) r.tracker

/-- Method `OperationThread.run` over a cube with spatial shape
`shape1 × shape2`, under abort requests `abortReq`: the full list of emitted
signals. -/
def operationThreadRun (shape1 shape2 : ℕ) (abortReq : ℕ → Bool) :
    List RunEvent :=
  runFrom abortReq (shape1 * shape2) 0 (tracker_mk (shape1 * shape2))

/-- Number of `finished` signals among the emitted events. -/
def finishedCount (events : List RunEvent) : ℕ :=
  (events.filter (fun e => e = RunEvent.finished)).length

/-! ### `SpectralOperationHandler` (spectral_operations.py) -/

/-- Constructor `SpectralOperationHandler.__init__` selects
`self.data.component_ids()[0]` as the default operand; on an empty component
list the subscript raises `IndexError`. -/
def handler_init_component_id (component_ids : List String) :
    Except String String :=
  pyIndex component_ids 0

/-- The component name computed by `SpectralOperationHandler.on_finished`:
`"{component_id} [Spectrally Smoothed]"`, with `" {n}"` appended when `n`,
the number of existing component ids containing that base string, is
positive. -/
def on_finished_name (component_id : String) (component_ids : List String) :
    String :=
  let component_name := component_id ++ " [Spectrally Smoothed]"
  let comp_count :=
    (component_ids.filter (fun x => py_in_str component_name x)).length
  if comp_count > 0 then component_name ++ " " ++ toString comp_count
  else component_name

/-- Method `SpectralOperationHandler.on_finished` as it acts on the dataset's
component list: `self.data.add_component(data, component_name)` adds a new
component under the computed name (glue's `add_component` adds, it does not
replace existing components). -/
def on_finished (component_id : String) (component_ids : List String) :
    List String :=
  component_ids ++ [on_finished_name component_id component_ids]

/-! ### `UnitController` (controls/units.py)

A length unit is modelled by its scale factor in meters (exact rationals:
`u.m = 1`, …, `u.AA = 10⁻¹⁰`), so that astropy's
`(w * u1).to(u2) / u2` becomes the elementwise dimensionless number
`w * u1.scale / u2.scale`. -/

/-- An astropy length unit, reduced to its scale in meters. -/
structure LUnit where
  scale : ℚ
deriving DecidableEq, Repr

/-- Result of `UnitController.convert_wavelengths`: an array, or the literal
`False` returned when the input wavelengths are `None` (the method never
returns `None`). -/
inductive PyValue where
  | arr (ws : List ℚ)
  | pyFalse
deriving DecidableEq, Repr

/-- The fixed unit catalog `self._units = [u.m, u.cm, u.mm, u.um, u.nm,
u.AA]` built in `UnitController.__init__` and never reassigned. -/
def UNITS : List LUnit :=
  [⟨1⟩, ⟨1/100⟩, ⟨1/1000⟩, ⟨1/1000000⟩, ⟨1/1000000000⟩, ⟨1/10000000000⟩]

/-- Catalog `self._units_titles`: each unit's astropy long name, title-cased. -/
def UNITS_TITLES : List String :=
  ["Meter", "Centimeter", "Millimeter", "Micrometer", "Nanometer",
   "Angstrom"]

/-- Mutable state of a `UnitController` together with the host-layout and
event-bus effects its methods produce (`_slice_controller.wavelength_label`,
`set_wavelengths`, `specviz_dispatch.redshift_changed.emit`). -/
structure UnitControllerState where
  original_wavelengths : Option (List ℚ)
  new_wavelengths : PyValue
  original_units : LUnit
  new_units : LUnit
  redshift_z : Option ℚ
  wavelength_textbox_label : String
  slice_wavelength_label : String
  layout_wavelengths : PyValue
  layout_units : LUnit
  emitted_redshifts : List ℚ
deriving DecidableEq, Repr

/-- Method `UnitController.convert_wavelengths(old_wavelengths, old_units,
new_units)`: when the input is not `None`, returns
`(old_wavelengths * old_units).to(new_units) / new_units` elementwise;
otherwise returns `False`. -/
def convert_wavelengths (old_wavelengths : Option (List ℚ))
    (old_units new_units : LUnit) : PyValue :=
  match old_wavelengths with
  | some ws =>
    PyValue.arr (ws.map (fun w => w * old_units.scale / new_units.scale))
  | none => PyValue.pyFalse

/-- The `redshift_z` property setter: stores `new_z`; when
`new_z is not None and new_z > 0` sets both the controller's label and the
slice controller's label to `'Rest Wavelength'`, otherwise to
`'Obs Wavelength'`; finally emits `redshift_changed` with the hard-coded
`z=0.01`. -/
def set_redshift_z (s : UnitControllerState) (new_z : Option ℚ) :
    UnitControllerState :=
  let s1 := { s with redshift_z := new_z }
  let s2 :=
    match new_z with
    | some z =>
      if z > 0 then
        { s1 with wavelength_textbox_label := "Rest Wavelength",
                  slice_wavelength_label := "Rest Wavelength" }
      else
        { s1 with wavelength_textbox_label := "Obs Wavelength",
                  slice_wavelength_label := "Obs Wavelength" }
    | none =>
      { s1 with wavelength_textbox_label := "Obs Wavelength",
                slice_wavelength_label := "Obs Wavelength" }
  { s2 with emitted_redshifts := s2.emitted_redshifts ++ [1/100] }

/-- Method `UnitController.on_combobox_change(new_unit_name)`: looks the title up
with `self._units_titles.index(...)` (raising `ValueError` when absent),
stores the unit at that index as `self._new_units`, converts the original
wavelengths and pushes the result to the host layout.  (The code's
`if self._new_wavelengths is None: return` guard never fires, since
`convert_wavelengths` returns an array or `False`, never `None`.) -/
def on_combobox_change (s : UnitControllerState) (new_unit_name : String) :
    Except String UnitControllerState :=
  match py_list_index UNITS_TITLES new_unit_name with
  | Except.error e => Except.error e
  | Except.ok i =>
    let newU := UNITS.getD i ⟨1⟩
    let nw := convert_wavelengths s.original_wavelengths s.original_units
      newU
    Except.ok { s with
      new_units := newU
      new_wavelengths := nw
      layout_wavelengths := nw
      layout_units := newU }

/-! ### Helper lemmas -/

theorem listIsPre_append_self (l m : List Char) :
    listIsPre l (l ++ m) = true := by
  induction l with
  | nil => rfl
  | cons a as ih => simp [listIsPre, ih]

theorem listIsSub_of_listIsPre (n h : List Char) (hp : listIsPre n h = true) :
    listIsSub n h = true := by
  cases h with
  | nil => simpa [listIsSub] using hp
  | cons c rest => simp [listIsSub, hp]

theorem py_in_str_append (a b : String) : py_in_str a (a ++ b) = true := by
  have hdata : (a ++ b).toList = a.toList ++ b.toList := by
    simp [String.toList, String.data_append]
  unfold py_in_str
  rw [hdata]
  exact listIsSub_of_listIsPre _ _ (listIsPre_append_self _ _)

theorem py_in_str_self (a : String) : py_in_str a a = true := by
  have := py_in_str_append a ""
  simpa using this

/-! ### Claims -/

/-- Claim C1: `SpectralOperationHandler.on_finished` on base component `X`
adds a component named `"X [Spectrally Smoothed]"` when no existing
component id contains that base label, and `"X [Spectrally Smoothed] n"`
(`n` the number of ids containing the base label) otherwise; in particular,
starting from a dataset with no id containing the base label, the first run
adds exactly `"X [Spectrally Smoothed]"`, the second adds
`"X [Spectrally Smoothed] 1"`, neither name is already among the existing
ids, and in general `on_finished` only ever appends, never overwriting an
existing component. -/
theorem on_finished_component_naming (X : String) :
    (∀ ids : List String,
      ((ids.filter (fun x =>
          py_in_str (X ++ " [Spectrally Smoothed]") x)).length = 0 →
        on_finished X ids = ids ++ [X ++ " [Spectrally Smoothed]"]) ∧
      (0 < (ids.filter (fun x =>
          py_in_str (X ++ " [Spectrally Smoothed]") x)).length →
        on_finished X ids = ids ++
          [X ++ " [Spectrally Smoothed]" ++ " " ++
            toString (ids.filter (fun x =>
              py_in_str (X ++ " [Spectrally Smoothed]") x)).length])) ∧
    (∀ ids : List String,
      (∀ y ∈ ids, py_in_str (X ++ " [Spectrally Smoothed]") y = false) →
      on_finished X ids = ids ++ [X ++ " [Spectrally Smoothed]"] ∧
      on_finished X (on_finished X ids) =
        ids ++ [X ++ " [Spectrally Smoothed]",
                X ++ " [Spectrally Smoothed] 1"] ∧
      (X ++ " [Spectrally Smoothed]") ∉ ids ∧
      (X ++ " [Spectrally Smoothed] 1") ∉
        ids ++ [X ++ " [Spectrally Smoothed]"]) ∧
    (∀ ids : List String, ids <+: on_finished X ids) := by
  refine ⟨?_, ?_, ?_⟩
  · intro ids
    constructor
    · intro h0
      have hnil : ids.filter (fun x =>
          py_in_str (X ++ " [Spectrally Smoothed]") x) = [] :=
        List.length_eq_zero.mp h0
      simp [on_finished, on_finished_name, hnil]
    · intro hp
      simp only [on_finished, on_finished_name]
      rw [if_pos hp]
  · intro ids h
    have hfilter :
        ids.filter (fun x => py_in_str (X ++ " [Spectrally Smoothed]") x)
          = [] := by
      refine List.filter_eq_nil_iff.mpr ?_
      intro a ha
      simp [h a ha]
    have hname1 : on_finished_name X ids = X ++ " [Spectrally Smoothed]" :=
      by simp [on_finished_name, hfilter]
    have hrun1 : on_finished X ids = ids ++ [X ++ " [Spectrally Smoothed]"]
      := by simp [on_finished, hname1]
    have hname2 :
        on_finished_name X (ids ++ [X ++ " [Spectrally Smoothed]"])
          = X ++ " [Spectrally Smoothed] 1" := by
      have hsingle :
          List.filter (fun x => py_in_str (X ++ " [Spectrally Smoothed]") x)
            [X ++ " [Spectrally Smoothed]"]
            = [X ++ " [Spectrally Smoothed]"] := by
        simp [List.filter, py_in_str_self]
      simp only [on_finished_name, List.filter_append, hfilter, hsingle,
        List.nil_append, List.length_singleton]
      rw [if_pos (by norm_num : (1 : ℕ) > 0)]
      rw [String.append_assoc, String.append_assoc]
      rfl
    refine ⟨hrun1, ?_, ?_, ?_⟩
    · rw [hrun1, on_finished, hname2]
      simp
    · intro hmem
      have := h _ hmem
      rw [py_in_str_self] at this
      exact Bool.noConfusion this
    · intro hmem
      rcases List.mem_append.mp hmem with hin | hone
      · have hfalse := h _ hin
        have htrue := py_in_str_append (X ++ " [Spectrally Smoothed]") " 1"
        rw [String.append_assoc] at htrue
        have h1 : (" [Spectrally Smoothed]" ++ " 1" : String)
            = " [Spectrally Smoothed] 1" := rfl
        rw [h1] at htrue
        rw [htrue] at hfalse
        exact Bool.noConfusion hfalse
      · have heq : X ++ " [Spectrally Smoothed] 1"
            = X ++ " [Spectrally Smoothed]" := by simpa using hone
        have hlen := congrArg String.length heq
        rw [String.length_append, String.length_append] at hlen
        have h2 : (" [Spectrally Smoothed] 1" : String).length = 24 := rfl
        have h3 : (" [Spectrally Smoothed]" : String).length = 22 := rfl
        rw [h2, h3] at hlen
        omega
  · intro ids2
    exact ⟨[on_finished_name X ids2], rfl⟩

/-- Witness for C1 at `X = "FLUX"`: the no-collision first run on an empty
dataset, and the general suffix rule on a dataset already holding two ids
that contain the base label (so the appended name carries count 2). -/
theorem on_finished_component_naming_witness :
    (∀ y ∈ ([] : List String),
        py_in_str ("FLUX" ++ " [Spectrally Smoothed]") y = false) ∧
    on_finished "FLUX" [] = [] ++ ["FLUX" ++ " [Spectrally Smoothed]"] ∧
    0 < ((["FLUX [Spectrally Smoothed]",
          "FLUX [Spectrally Smoothed] 1"] : List String).filter
        (fun x => py_in_str ("FLUX" ++ " [Spectrally Smoothed]") x)).length ∧
    on_finished "FLUX"
        ["FLUX [Spectrally Smoothed]", "FLUX [Spectrally Smoothed] 1"] =
      ["FLUX [Spectrally Smoothed]", "FLUX [Spectrally Smoothed] 1"] ++
        ["FLUX" ++ " [Spectrally Smoothed]" ++ " " ++
          toString ((["FLUX [Spectrally Smoothed]",
              "FLUX [Spectrally Smoothed] 1"] : List String).filter
            (fun x =>
              py_in_str ("FLUX" ++ " [Spectrally Smoothed]") x)).length] := by
  refine ⟨by simp, ((on_finished_component_naming "FLUX").2.1 [] (by simp)).1,
    by decide, ?_⟩
  exact ((on_finished_component_naming "FLUX").1
    ["FLUX [Spectrally Smoothed]", "FLUX [Spectrally Smoothed] 1"]).2
    (by decide)

/-- Claim C2: once `SimpleProgressTracker.abort` has set the abort flag, every
subsequent `__call__` first updates `_current_value` (to the given value, or
by the increment-by-one default) and then raises
`Exception("Process aborted.")`; the flag stays set afterwards, so every
later call raises as well. -/
theorem tracker_advance_after_abort_raises (t : SimpleProgressTracker)
    (v : Option ℚ) :
    (trackerCall (tracker_abort t) v).raised = some "Process aborted." ∧
    (trackerCall (tracker_abort t) v).tracker.current_value =
      pyOr v (t.current_value + 1) ∧
    (trackerCall (tracker_abort t) v).tracker.abort_flag = true := by
  refine ⟨rfl, rfl, rfl⟩

/-- Counterexample to claim C3 as stated: `advance(0)` does not set
`_current_value` to `0` — on a fresh tracker with `_current_value = 5` it
yields `6`, because `value or self._current_value + 1` treats the falsy
`0` like an absent value. -/
theorem tracker_advance_zero_counterexample :
    (trackerCall ⟨5, 100, false⟩ (some 0)).tracker.current_value = 6 ∧
    (6 : ℚ) ≠ 0 := by
  constructor
  · norm_num [trackerCall, pyOr]
  · norm_num

/-- Claim C3 (amended): `__call__(v)` sets `_current_value = v` for every
nonzero `v`; with `v = 0` or with no value it increments `_current_value`
by exactly `1`. -/
theorem tracker_advance_semantics (t : SimpleProgressTracker) (v : ℚ) :
    (v ≠ 0 → (trackerCall t (some v)).tracker.current_value = v) ∧
    (trackerCall t (some 0)).tracker.current_value = t.current_value + 1 ∧
    (trackerCall t none).tracker.current_value = t.current_value + 1 := by
  refine ⟨fun hv => ?_, ?_, ?_⟩
  · simp [trackerCall, pyOr, hv]
  · simp [trackerCall, pyOr]
  · simp [trackerCall, pyOr]

/-- Witness for C3 (amended) at a tracker with `_current_value = 0` and
`v = 7`. -/
theorem tracker_advance_semantics_witness :
    (7 : ℚ) ≠ 0 ∧
    (trackerCall (tracker_mk 100) (some 7)).tracker.current_value = 7 := by
  exact ⟨by norm_num,
    (tracker_advance_semantics (tracker_mk 100) 7).1 (by norm_num)⟩

/-- Unfolding of one loop iteration of `runFrom`: the step raises (and the
run stops with no further events) exactly when the abort flag is set at the
time of the callback. -/
theorem runFrom_succ (abortReq : ℕ → Bool) (n i : ℕ)
    (t : SimpleProgressTracker) :
    runFrom abortReq (n + 1) i t =
      if (if abortReq i then tracker_abort t else t).abort_flag then []
      else
        RunEvent.status (percent_value
            (trackerCall (if abortReq i then tracker_abort t else t)
              none).tracker) ::
          runFrom abortReq n (i + 1)
            (trackerCall (if abortReq i then tracker_abort t else t)
              none).tracker := by
  cases hb : (if abortReq i then tracker_abort t else t).abort_flag
  · simp [runFrom, trackerCall, hb]
  · simp [runFrom, trackerCall, hb]

/-- Method `__call__` never changes the abort flag. -/
theorem trackerCall_abort_flag (t : SimpleProgressTracker) (v : Option ℚ) :
    (trackerCall t v).tracker.abort_flag = t.abort_flag := rfl

/-- At most one `finished` signal is ever emitted by the run loop. -/
theorem finishedCount_runFrom_le_one (abortReq : ℕ → Bool) :
    ∀ (n i : ℕ) (t : SimpleProgressTracker),
      finishedCount (runFrom abortReq n i t) ≤ 1 := by
  intro n
  induction n with
  | zero => intro i t; simp [runFrom, finishedCount]
  | succ n ih =>
    intro i t
    rw [runFrom_succ]
    cases hb : (if abortReq i then tracker_abort t else t).abort_flag
    · rw [if_neg (by simp [hb])]
      have hcons : finishedCount
          (RunEvent.status (percent_value
              (trackerCall (if abortReq i then tracker_abort t else t)
                none).tracker) ::
            runFrom abortReq n (i + 1)
              (trackerCall (if abortReq i then tracker_abort t else t)
                none).tracker)
          = finishedCount (runFrom abortReq n (i + 1)
              (trackerCall (if abortReq i then tracker_abort t else t)
                none).tracker) := by
        simp [finishedCount]
      rw [hcons]
      exact ih _ _
    · rw [if_pos (by simp [hb])]
      simp [finishedCount]

/-- If the abort flag is already set (and at least one callback remains), or
an abort request arrives before one of the remaining callbacks, the run loop
terminates without ever emitting `finished`. -/
theorem runFrom_no_finished (abortReq : ℕ → Bool) :
    ∀ (n i : ℕ) (t : SimpleProgressTracker),
      ((t.abort_flag = true ∧ 0 < n) ∨
        (∃ j, i ≤ j ∧ j < i + n ∧ abortReq j = true)) →
      finishedCount (runFrom abortReq n i t) = 0 := by
  intro n
  induction n with
  | zero =>
    intro i t h
    rcases h with ⟨_, h0⟩ | ⟨j, hij, hji, _⟩
    · omega
    · omega
  | succ n ih =>
    intro i t h
    rw [runFrom_succ]
    cases hb : (if abortReq i then tracker_abort t else t).abort_flag
    · rw [if_neg (by simp [hb])]
      have hreqi : abortReq i = false := by
        cases hq : abortReq i
        · rfl
        · rw [hq] at hb
          simp [tracker_abort] at hb
      have htf : t.abort_flag = false := by
        rw [hreqi] at hb
        simpa using hb
      have hnext : (∃ j, i + 1 ≤ j ∧ j < (i + 1) + n ∧
          abortReq j = true) := by
        rcases h with ⟨hflag, _⟩ | ⟨j, hij, hji, hreq⟩
        · rw [htf] at hflag; exact Bool.noConfusion hflag
        · refine ⟨j, ?_, by omega, hreq⟩
          rcases Nat.eq_or_lt_of_le hij with heq | hlt
          · rw [← heq] at hreq
            rw [hreq] at hreqi
            exact Bool.noConfusion hreqi
          · omega
      have hcons : ∀ (q : ℚ) (l : List RunEvent),
          finishedCount (RunEvent.status q :: l) = finishedCount l := by
        intro q l; simp [finishedCount]
      rw [hcons]
      exact ih _ _ (Or.inr hnext)
    · rw [if_pos (by simp [hb])]
      simp [finishedCount]

/-- Claim C4: in every `OperationThread.run`, at most one `finished` signal is
emitted; and whenever an abort request arrives before some remaining
progress checkpoint (including before the very first one), the tracker
raises there, the run terminates, and no `finished` signal is emitted at
all. -/
theorem run_finished_at_most_once_and_abort_silences
    (shape1 shape2 : ℕ) (abortReq : ℕ → Bool) :
    finishedCount (operationThreadRun shape1 shape2 abortReq) ≤ 1 ∧
    ((∃ j, j < shape1 * shape2 ∧ abortReq j = true) →
      finishedCount (operationThreadRun shape1 shape2 abortReq) = 0) := by
  constructor
  · exact finishedCount_runFrom_le_one abortReq (shape1 * shape2) 0
      (tracker_mk (shape1 * shape2))
  · rintro ⟨j, hj, hreq⟩
    exact runFrom_no_finished abortReq (shape1 * shape2) 0
      (tracker_mk (shape1 * shape2))
      (Or.inr ⟨j, Nat.zero_le j, by omega, hreq⟩)

/-- Witness for C4 on a `2 × 2` cube with the abort request arriving before
the first progress checkpoint. -/
theorem run_finished_abort_witness :
    (∃ j, j < 2 * 2 ∧ (fun i => i == 0) j = true) ∧
    finishedCount (operationThreadRun 2 2 (fun i => i == 0)) = 0 := by
  refine ⟨⟨0, by norm_num, rfl⟩, ?_⟩
  exact (run_finished_at_most_once_and_abort_silences 2 2
    (fun i => i == 0)).2 ⟨0, by norm_num, rfl⟩

/-- Claim C5: `convert_wavelengths` on a `None` input returns the falsy
`False` (no exception); on a present array it returns
`(values * from_unit).to(to_unit) / to_unit` elementwise, preserving the
array's length and ordering (the `i`-th output comes from the `i`-th
input). -/
theorem convert_wavelengths_spec (u1 u2 : LUnit) (ws : List ℚ) :
    convert_wavelengths none u1 u2 = PyValue.pyFalse ∧
    convert_wavelengths (some ws) u1 u2 =
      PyValue.arr (ws.map (fun w => w * u1.scale / u2.scale)) ∧
    (ws.map (fun w => w * u1.scale / u2.scale)).length = ws.length ∧
    ∀ i : ℕ, (ws.map (fun w => w * u1.scale / u2.scale)).get? i =
      (ws.get? i).map (fun w => w * u1.scale / u2.scale) := by
  refine ⟨rfl, rfl, by simp, fun i => by simp⟩

/-- Claim C6: for every non-empty wavelength array and every pair of units
from the controller's catalog, converting and converting back yields the
original array (exactly, over `ℚ`). -/
theorem convert_wavelengths_round_trip (ws : List ℚ) (u1 u2 : LUnit)
    (_hne : ws ≠ []) (h1 : u1 ∈ UNITS) (h2 : u2 ∈ UNITS) :
    ∃ ws', convert_wavelengths (some ws) u1 u2 = PyValue.arr ws' ∧
      convert_wavelengths (some ws') u2 u1 = PyValue.arr ws := by
  have hpos : ∀ x ∈ UNITS, 0 < x.scale := by
    intro x hx
    simp only [UNITS] at hx
    fin_cases hx <;> norm_num
  have h1z : u1.scale ≠ 0 := ne_of_gt (hpos u1 h1)
  have h2z : u2.scale ≠ 0 := ne_of_gt (hpos u2 h2)
  have hmap : ∀ l : List ℚ,
      (l.map (fun w => w * u1.scale / u2.scale)).map
        (fun w => w * u2.scale / u1.scale) = l := by
    intro l
    induction l with
    | nil => rfl
    | cons a as ih =>
      simp only [List.map_cons, List.cons.injEq]
      refine ⟨?_, ih⟩
      field_simp
  refine ⟨ws.map (fun w => w * u1.scale / u2.scale), rfl, ?_⟩
  have hred : convert_wavelengths
      (some (ws.map (fun w => w * u1.scale / u2.scale))) u2 u1 =
      PyValue.arr ((ws.map (fun w => w * u1.scale / u2.scale)).map
        (fun w => w * u2.scale / u1.scale)) := rfl
  rw [hred, hmap]

/-- Witness for C6 with wavelengths `[1, 2]`, meters to angstroms. -/
theorem convert_wavelengths_round_trip_witness :
    ([(1 : ℚ), 2] ≠ []) ∧ (⟨1⟩ : LUnit) ∈ UNITS ∧
    (⟨1/10000000000⟩ : LUnit) ∈ UNITS ∧
    ∃ ws', convert_wavelengths (some [(1 : ℚ), 2]) ⟨1⟩ ⟨1/10000000000⟩ =
        PyValue.arr ws' ∧
      convert_wavelengths (some ws') ⟨1/10000000000⟩ ⟨1⟩ =
        PyValue.arr [(1 : ℚ), 2] := by
  refine ⟨by simp, by norm_num [UNITS], by norm_num [UNITS], ?_⟩
  exact convert_wavelengths_round_trip [(1 : ℚ), 2] ⟨1⟩ ⟨1/10000000000⟩
    (by simp) (by norm_num [UNITS]) (by norm_num [UNITS])

/-- Claim C7: the `redshift_z` setter stores `z`; when `z` is present and
positive, both the controller's wavelength label and the slice controller's
label become `'Rest Wavelength'`; when `z` is `None`, zero or negative, both
become `'Obs Wavelength'`. -/
theorem set_redshift_labels (s : UnitControllerState) (z : Option ℚ) :
    (set_redshift_z s z).redshift_z = z ∧
    (∀ zv : ℚ, z = some zv → 0 < zv →
      (set_redshift_z s z).wavelength_textbox_label = "Rest Wavelength" ∧
      (set_redshift_z s z).slice_wavelength_label = "Rest Wavelength") ∧
    ((z = none ∨ ∃ zv : ℚ, z = some zv ∧ zv ≤ 0) →
      (set_redshift_z s z).wavelength_textbox_label = "Obs Wavelength" ∧
      (set_redshift_z s z).slice_wavelength_label = "Obs Wavelength") := by
  rcases z with _ | zv
  · refine ⟨rfl, ?_, fun _ => ⟨rfl, rfl⟩⟩
    intro zv h
    exact absurd h (by simp)
  · by_cases hz : 0 < zv
    · refine ⟨by simp [set_redshift_z, hz], ?_, ?_⟩
      · intro zv' he _
        exact ⟨by simp [set_redshift_z, hz], by simp [set_redshift_z, hz]⟩
      · intro hc
        rcases hc with hn | ⟨zv', he, hle⟩
        · exact absurd hn (by simp)
        · have : zv' = zv := by
            injection he.symm
          rw [this] at hle
          exact absurd hz (by linarith)
    · refine ⟨by simp [set_redshift_z, hz], ?_, ?_⟩
      · intro zv' he hp
        have : zv' = zv := by
          injection he.symm
        rw [this] at hp
        exact absurd hp hz
      · intro _
        exact ⟨by simp [set_redshift_z, hz], by simp [set_redshift_z, hz]⟩

/-- Sample controller state used to instantiate witnesses. -/
def sampleUCState : UnitControllerState :=
  { original_wavelengths := some [1, 2]
    new_wavelengths := PyValue.pyFalse
    original_units := ⟨1⟩
    new_units := ⟨1⟩
    redshift_z := none
    wavelength_textbox_label := "Obs Wavelength"
    slice_wavelength_label := "Obs Wavelength"
    layout_wavelengths := PyValue.pyFalse
    layout_units := ⟨1⟩
    emitted_redshifts := [] }

/-- Witness for C7 at `z = 0.5`. -/
theorem set_redshift_labels_witness :
    (set_redshift_z sampleUCState (some (1/2))).wavelength_textbox_label =
      "Rest Wavelength" ∧
    (set_redshift_z sampleUCState (some (1/2))).slice_wavelength_label =
      "Rest Wavelength" := by
  exact (set_redshift_labels sampleUCState (some (1/2))).2.1 (1/2) rfl
    (by norm_num)

/-- Claim C8: the `redshift_z` setter always emits the hard-coded redshift
value `z = 0.01` on the specviz dispatch channel, regardless of the `z`
that was stored. -/
theorem set_redshift_emits_constant (s : UnitControllerState)
    (z : Option ℚ) :
    (set_redshift_z s z).emitted_redshifts =
      s.emitted_redshifts ++ [1/100] := by
  rcases z with _ | zv
  · rfl
  · by_cases hz : 0 < zv
    · simp [set_redshift_z, hz]
    · simp [set_redshift_z, hz]

/-- Python `list.index` raises `ValueError` on an absent element. -/
theorem py_list_index_not_mem (xs : List String) (x : String) (h : x ∉ xs) :
    py_list_index xs x = Except.error "ValueError: not in list" := by
  induction xs with
  | nil => rfl
  | cons y ys ih =>
    have hxy : ¬y = x := by
      intro he
      exact h (by rw [he]; exact List.mem_cons_self x ys)
    have hmem : x ∉ ys := fun hm => h (List.mem_cons_of_mem y hm)
    rw [py_list_index, if_neg hxy, ih hmem]
    rfl

/-- Python `list.index` on a present element returns an index at which that
element occurs. -/
theorem py_list_index_mem (xs : List String) (x : String) (h : x ∈ xs) :
    ∃ i, py_list_index xs x = Except.ok i ∧ xs.get? i = some x := by
  induction xs with
  | nil => cases h
  | cons y ys ih =>
    by_cases hxy : y = x
    · exact ⟨0, by simp [py_list_index, hxy], by simp [hxy]⟩
    · have hmem : x ∈ ys := by
        rcases List.mem_cons.mp h with he | hm
        · exact absurd he.symm hxy
        · exact hm
      rcases ih hmem with ⟨i, hok, hget⟩
      refine ⟨i + 1, ?_, by simpa using hget⟩
      rw [py_list_index, if_neg hxy, hok]
      rfl

/-- Claim C9: `on_combobox_change` with a title absent from the catalog
raises `ValueError` (fails loudly, no silent no-op); with a present title it
succeeds and selects as `_new_units` the unit stored at a catalog index
whose title matches. -/
theorem on_combobox_change_lookup (s : UnitControllerState)
    (title : String) :
    (title ∉ UNITS_TITLES →
      on_combobox_change s title =
        Except.error "ValueError: not in list") ∧
    (title ∈ UNITS_TITLES →
      ∃ (s' : UnitControllerState) (i : ℕ),
        on_combobox_change s title = Except.ok s' ∧
        UNITS_TITLES.get? i = some title ∧
        UNITS.get? i = some s'.new_units) := by
  constructor
  · intro h
    rw [on_combobox_change, py_list_index_not_mem UNITS_TITLES title h]
  · intro hmem
    rcases py_list_index_mem UNITS_TITLES title hmem with ⟨i, hok, hget⟩
    have hlt : i < 6 := by
      by_contra hc
      push_neg at hc
      have hnone : UNITS_TITLES.get? i = none :=
        List.get?_eq_none.mpr (by simpa [UNITS_TITLES] using hc)
      rw [hnone] at hget
      cases hget
    refine ⟨{ s with
        new_units := UNITS.getD i ⟨1⟩
        new_wavelengths := convert_wavelengths s.original_wavelengths
          s.original_units (UNITS.getD i ⟨1⟩)
        layout_wavelengths := convert_wavelengths s.original_wavelengths
          s.original_units (UNITS.getD i ⟨1⟩)
        layout_units := UNITS.getD i ⟨1⟩ }, i, ?_, hget, ?_⟩
    · rw [on_combobox_change, hok]
    · interval_cases i <;> rfl

/-- Witness for C9 at the catalog title `"Nanometer"`. -/
theorem on_combobox_change_lookup_witness :
    "Nanometer" ∈ UNITS_TITLES ∧
    ∃ (s' : UnitControllerState) (i : ℕ),
      on_combobox_change sampleUCState "Nanometer" = Except.ok s' ∧
      UNITS_TITLES.get? i = some "Nanometer" ∧
      UNITS.get? i = some s'.new_units := by
  exact ⟨by decide,
    (on_combobox_change_lookup sampleUCState "Nanometer").2 (by decide)⟩

/-- Claim C10: the `SpectralOperationHandler` constructor takes the
dataset's first component id as the default operand and raises `IndexError`
on a dataset with no components, so the constructor has the unstated
precondition that the dataset has at least one component. -/
theorem handler_init_first_component :
    handler_init_component_id [] =
      Except.error "IndexError: list index out of range" ∧
    ∀ (x : String) (rest : List String),
      handler_init_component_id (x :: rest) = Except.ok x := by
  exact ⟨rfl, fun x rest => rfl⟩

end Cubeviz
